import Mathlib

/-!
Shallow embedding of the core logic of `src/backend/server.js` from the
k8s-portfolio repository: the JSON-file-backed portfolio document store
(loadPortfolioData / savePortfolioData / the POST /api/projects handler),
the Prometheus instrumentation middleware (active-connection gauge,
request counter, duration histogram labels), and the GET /api/logs
line-slicing logic.

JavaScript numbers that matter here are integers plus the value
-Infinity (produced by `Math.max()` applied to an empty spread).  They
are modelled as `Option Int`, with `none` standing for -Infinity.
-/

/-- A JavaScript number as it occurs in the id arithmetic of server.js:
an integer, or -Infinity (modelled as `none`). -/
abbrev JsNum := Option Int

/-- Binary `Math.max` on `JsNum`: -Infinity is the identity. -/
def jsMax2 : JsNum → JsNum → JsNum
  | none, y => y
  | some a, none => some a
  | some a, some b => some (max a b)

/-- `Math.max(...l)`: fold of binary max with initial value -Infinity.
`Math.max()` of an empty spread returns -Infinity (it does not throw). -/
def jsMathMax (l : List JsNum) : JsNum :=
  l.foldl jsMax2 none

/-- `x + 1` on `JsNum`: -Infinity + 1 = -Infinity in IEEE double. -/
def jsAddOne : JsNum → JsNum
  | none => none
  | some n => some (n + 1)

/-- Order on `JsNum` with -Infinity below everything. -/
def jsLe : JsNum → JsNum → Prop
  | none, _ => True
  | some _, none => False
  | some a, some b => a ≤ b

/-- A project record as built by server.js (lines 321-343 and the default
data).  `req.body` fields may be absent (`undefined`), hence `Option`. -/
structure Project where
  id : JsNum
  title : Option String
  description : Option String
  technologies : List String
  featured : Bool
  github_url : Option String
  created_at : String
deriving DecidableEq

/-- A skill record from the default data (server.js lines 159-165). -/
structure Skill where
  id : Int
  name : String
  category : String
  proficiency : Int
deriving DecidableEq

/-- The `metadata` object of the portfolio document. -/
structure Metadata where
  initialized_at : Option String
  version : Option String
  last_updated : Option String
deriving DecidableEq

/-- The empty JS object `\x7b\x7d` assigned by `data.metadata = data.metadata || \x7b\x7d`. -/
def mdEmpty : Metadata :=
  { initialized_at := none, version := none, last_updated := none }

/-- The portfolio document: on-disk JSON and in-memory mirror.
`metadata` may be absent on a document supplied by a caller. -/
structure PortfolioDocument where
  projects : List Project
  skills : List Skill
  metadata : Option Metadata
deriving DecidableEq

/-- State of the backing file `portfolio-data.json`: missing, present but
unparseable, or holding a well-formed document. -/
inductive FsFile
  | absent
  | corrupt
  | stored (doc : PortfolioDocument)
deriving DecidableEq

/-- Result of `savePortfolioData`: the (mutated) in-memory document, the
resulting file state, and whether the catch branch logged an error. -/
structure SaveResult where
  doc : PortfolioDocument
  file : FsFile
  errorLogged : Bool
deriving DecidableEq

/-- The in-place mutation at the top of `savePortfolioData` (lines
180-181): `data.metadata = data.metadata || \x7b\x7d` then
`data.metadata.last_updated = new Date().toISOString()`. -/
def stampMetadata (now : String) (d : PortfolioDocument) : PortfolioDocument :=
  { d with metadata := some { d.metadata.getD mdEmpty with last_updated := some now } }

/-- `savePortfolioData(data)` (lines 178-187).  The metadata mutation
happens before the write; `fs.writeFileSync` may throw (`writeOk =
false`), in which case the error is caught and logged and the file is
left as it was — the exception never propagates to the caller. -/
def savePortfolioData (now : String) (writeOk : Bool) (d : PortfolioDocument)
    (file : FsFile) : SaveResult :=
  let d1 := stampMetadata now d
  if writeOk then
    { doc := d1, file := FsFile.stored d1, errorLogged := false }
  else
    { doc := d1, file := file, errorLogged := true }

/-- The two sample projects of the default document (lines 139-158). -/
def defaultProjects (now : String) : List Project :=
  [ { id := some 1
      title := some "Kubernetes Portfolio"
      description := some "A comprehensive Kubernetes portfolio demonstrating stateless and stateful applications"
      technologies := ["Kubernetes", "Docker", "Node.js", "PostgreSQL"]
      featured := true
      github_url := some "https://github.com/portfolio/k8s-portfolio"
      created_at := now },
    { id := some 2
      title := some "Microservices E-commerce"
      description := some "Full-stack e-commerce platform using microservices architecture"
      technologies := ["Node.js", "React", "MongoDB", "Redis", "Docker"]
      featured := false
      github_url := some "https://github.com/portfolio/microservices-ecommerce"
      created_at := now } ]

/-- The five sample skills of the default document (lines 159-165). -/
def defaultSkills : List Skill :=
  [ { id := 1, name := "Kubernetes", category := "devops", proficiency := 8 },
    { id := 2, name := "Docker", category := "devops", proficiency := 9 },
    { id := 3, name := "Node.js", category := "backend", proficiency := 8 },
    { id := 4, name := "React", category := "frontend", proficiency := 7 },
    { id := 5, name := "PostgreSQL", category := "database", proficiency := 7 } ]

/-- The `defaultData` literal of `loadPortfolioData` (lines 138-170). -/
def defaultData (now : String) : PortfolioDocument :=
  { projects := defaultProjects now
    skills := defaultSkills
    metadata := some { initialized_at := some now, version := some "1.0.0", last_updated := none } }

/-- Result of `loadPortfolioData`: the document returned, the file state
afterwards, and whether the default-data path was taken. -/
structure LoadResult where
  doc : PortfolioDocument
  file : FsFile
  usedDefault : Bool
deriving DecidableEq

/-- `loadPortfolioData()` (lines 126-175).  If the file exists and parses,
its contents are returned.  If the file exists but reading or parsing
throws, the catch branch logs and control falls through to the default
path; if the file does not exist, control falls through directly.  The
default path builds `defaultData`, calls `savePortfolioData` on it (which
mutates it, stamping `last_updated`) and returns the mutated object. -/
def loadPortfolioData (now : String) (writeOk : Bool) (file : FsFile) : LoadResult :=
  match file with
  | FsFile.stored d => { doc := d, file := FsFile.stored d, usedDefault := false }
  | f =>
    let r := savePortfolioData now writeOk (defaultData now) f
    { doc := r.doc, file := r.file, usedDefault := true }

/-- The JSON body of POST /api/projects; absent fields are `undefined`. -/
structure ProjectBody where
  title : Option String
  description : Option String
  technologies : Option (List String)
  github_url : Option String
deriving DecidableEq

/-- The `newProject` object literal of the handler (lines 324-332):
`id: Math.max(...portfolioData.projects.map(p => p.id)) + 1`,
`technologies: technologies || []`, `featured: false`. -/
def mkNewProject (body : ProjectBody) (now : String) (projects : List Project) : Project :=
  { id := jsAddOne (jsMathMax (projects.map Project.id))
    title := body.title
    description := body.description
    technologies := body.technologies.getD []
    featured := false
    github_url := body.github_url
    created_at := now }

/-- The HTTP response produced by the POST /api/projects handler. -/
structure HttpResponse where
  status : Nat
  success : Bool
  projectData : Option Project
deriving DecidableEq

/-- Full observable outcome of one POST /api/projects call. -/
structure HandlerResult where
  response : HttpResponse
  doc : PortfolioDocument
  file : FsFile
  saveErrorLogged : Bool
deriving DecidableEq

/-- The POST /api/projects handler (lines 321-343): build `newProject`,
push it onto the in-memory array, call `savePortfolioData`, respond 201
with the new record.  No step in this body throws — in particular
`Math.max` of an empty spread yields -Infinity rather than an exception —
so the catch branch is never taken. -/
def postProjects (body : ProjectBody) (now : String) (writeOk : Bool)
    (doc : PortfolioDocument) (file : FsFile) : HandlerResult :=
  let p := mkNewProject body now doc.projects
  let doc1 := { doc with projects := doc.projects ++ [p] }
  let r := savePortfolioData now writeOk doc1 file
  { response := { status := 201, success := true, projectData := some p }
    doc := r.doc
    file := r.file
    saveErrorLogged := r.errorLogged }

/-- A concrete empty request body. -/
def emptyBody : ProjectBody :=
  { title := none, description := none, technologies := none, github_url := none }

/-- A concrete document whose projects collection is empty. -/
def emptyDoc : PortfolioDocument :=
  { projects := [], skills := [], metadata := none }

/-- A minimal concrete project with a given id. -/
def sampleProject (i : Int) : Project :=
  { id := some i
    title := some "p"
    description := none
    technologies := []
    featured := false
    github_url := none
    created_at := "t" }

/-- A concrete document whose project ids are 1, 2, 5. -/
def doc125 : PortfolioDocument :=
  { projects := [sampleProject 1, sampleProject 2, sampleProject 5]
    skills := []
    metadata := none }

/-- One half of a request lifetime as seen by the connection-counting
middleware (lines 48-54): `activeConnections.inc()` when the middleware
runs, `activeConnections.dec()` on the response finish event. -/
inductive ConnEvent
  | start
  | finish
deriving DecidableEq

/-- Effect of one middleware event on the `http_active_connections`
gauge value. -/
def gaugeStep : Int → ConnEvent → Int
  | g, ConnEvent.start => g + 1
  | g, ConnEvent.finish => g - 1

/-- Gauge value after a trace of middleware events, starting from g0. -/
def gaugeAfter (g0 : Int) (es : List ConnEvent) : Int :=
  es.foldl gaugeStep g0

/-- The (method, route, status) label triple of the request metrics
(lines 25-35): `labelNames: ['method', 'route', 'status']`. -/
structure ReqLabel where
  method : String
  route : String
  status : Nat
deriving DecidableEq

/-- The zero state of the `http_requests_total` counter vector: every
label triple reads 0 before its first observation. -/
def counterZero : ReqLabel → Nat :=
  fun _ => 0

/-- `httpRequestsTotal.labels(method, route, status).inc()` (lines
68-70): bump the named triple by one, leave every other triple alone. -/
def counterInc (c : ReqLabel → Nat) (l : ReqLabel) : ReqLabel → Nat :=
  fun x => if x = l then c x + 1 else c x

/-- Counter-vector state after a sequence of completed requests, each
contributing one `inc` of its label triple on its finish event. -/
def requestsTotalAfter (rs : List ReqLabel) : ReqLabel → Nat :=
  rs.foldl counterInc counterZero

/-- The route-label ternary of the metrics middleware (line 62):
`req.route ? req.route.path : req.path`. -/
def routeOf : Option String → String → String
  | some r, _ => r
  | none, p => p

/-- One observation of the `http_request_duration_seconds` histogram:
label triple plus elapsed time (milliseconds before the /1000 scaling). -/
structure HistObs where
  method : String
  route : String
  status : Nat
  durationMs : Int
deriving DecidableEq

/-- One increment of the `http_requests_total` counter. -/
structure CounterHit where
  method : String
  route : String
  status : Nat
deriving DecidableEq

/-- The finish handler of the metrics middleware (lines 60-71): compute
the elapsed time and the route label, record the histogram observation,
increment the counter — both under the same (method, route, status). -/
def metricsOnFinish (method : String) (matched : Option String) (path : String)
    (status : Nat) (startMs nowMs : Int) : HistObs × CounterHit :=
  let route := routeOf matched path
  ( { method := method, route := route, status := status, durationMs := nowMs - startMs },
    { method := method, route := route, status := status } )

/-- `l.slice(s)` for a single integer argument, per the JS Array.slice
specification: a negative start counts from the end, clamped at 0; a
non-negative start is clamped at the length.  `ToIntegerOrInfinity`
normalizes -0 to 0, and `Int` has a single zero, so both are `0` here. -/
def jsSliceFrom (l : List String) (s : Int) : List String :=
  let len : Int := l.length
  let k : Int := if s < 0 then max (len + s) 0 else min s len
  l.drop k.toNat

/-- The line-selection step of GET /api/logs (lines 402, 414-415):
`const \x7b lines = 50 \x7d = req.query` then `.slice(-lines)`.  A present
query value is a decimal string, modelled by its integer value (unary
minus coerces it to a number); an absent value defaults to 50. -/
def apiLogsLines (linesQ : Option Int) (logLines : List String) : List String :=
  let lines : Int := linesQ.getD 50
  jsSliceFrom logLines (-lines)

/-! ## Helper lemmas -/

lemma jsLe_refl (x : JsNum) : jsLe x x := by
  cases x <;> simp [jsLe]

lemma jsLe_trans {x y z : JsNum} (h1 : jsLe x y) (h2 : jsLe y z) : jsLe x z := by
  cases x <;> cases y <;> cases z <;> simp_all [jsLe]
  omega

lemma jsLe_left (x y : JsNum) : jsLe x (jsMax2 x y) := by
  cases x <;> cases y <;> simp [jsLe, jsMax2]

lemma jsLe_right (x y : JsNum) : jsLe y (jsMax2 x y) := by
  cases x <;> cases y <;> simp [jsLe, jsMax2]

lemma foldl_jsMax2_acc (l : List JsNum) (acc : JsNum) :
    jsLe acc (l.foldl jsMax2 acc) := by
  induction l generalizing acc with
  | nil => exact jsLe_refl acc
  | cons a l ih =>
    exact jsLe_trans (jsLe_left acc a) (ih (jsMax2 acc a))

lemma foldl_jsMax2_mem {l : List JsNum} {x : JsNum} (hx : x ∈ l) (acc : JsNum) :
    jsLe x (l.foldl jsMax2 acc) := by
  induction l generalizing acc with
  | nil => cases hx
  | cons a l ih =>
    rcases List.mem_cons.1 hx with h | h
    · subst h
      exact jsLe_trans (jsLe_right acc x) (foldl_jsMax2_acc l (jsMax2 acc x))
    · exact ih h (jsMax2 acc a)

lemma jsMathMax_mem_le {l : List JsNum} {x : JsNum} (hx : x ∈ l) :
    jsLe x (jsMathMax l) :=
  foldl_jsMax2_mem hx none

lemma jsMathMax_ne_none {l : List JsNum} {x : JsNum} (hx : x ∈ l) (hxn : x ≠ none) :
    jsMathMax l ≠ none := by
  intro hn
  have h := jsMathMax_mem_le hx
  rw [hn] at h
  cases x with
  | none => exact hxn rfl
  | some a => exact h

lemma gaugeAfter_eq (g0 : Int) (es : List ConnEvent) :
    gaugeAfter g0 es =
      g0 + (es.count ConnEvent.start : Int) - (es.count ConnEvent.finish : Int) := by
  induction es generalizing g0 with
  | nil => simp [gaugeAfter]
  | cons e es ih =>
    have h := ih (gaugeStep g0 e)
    cases e <;>
    · simp only [gaugeAfter, List.foldl_cons] at h ⊢
      rw [h]
      simp [List.count_cons, gaugeStep]
      omega

lemma foldl_counterInc (rs : List ReqLabel) (c : ReqLabel → Nat) (x : ReqLabel) :
    rs.foldl counterInc c x = c x + rs.count x := by
  induction rs generalizing c with
  | nil => simp
  | cons a rs ih =>
    rw [List.foldl_cons, ih]
    simp only [counterInc, List.count_cons]
    by_cases h : x = a
    · subst h
      simp
      omega
    · have h2 : ¬ (a == x) = true := by
        simp [BEq.beq]
        exact fun he => h he.symm
      simp [h, h2]

/-! ## Claims -/

/-- C1 counterexample: on a document with an empty projects collection,
POST /api/projects does not fail with a runtime error — `Math.max()` of
an empty spread is -Infinity, so the handler succeeds with status 201 and
assigns the new project the id -Infinity, which is not 1 either. -/
theorem C1_counterexample :
    (postProjects emptyBody "t" true emptyDoc FsFile.absent).response.status = 201
    ∧ (postProjects emptyBody "t" true emptyDoc FsFile.absent).response.success = true
    ∧ (postProjects emptyBody "t" true emptyDoc FsFile.absent).response.projectData.map
        Project.id = some none
    ∧ (postProjects emptyBody "t" true emptyDoc FsFile.absent).response.projectData.map
        Project.id ≠ some (some 1) := by
  decide

/-- C1 (amended): on every document whose projects collection is empty,
the POST /api/projects handler neither raises an error nor assigns id 1:
it responds 201 with success true and assigns the new project the id
-Infinity (`Math.max()` over zero elements is -Infinity and
-Infinity + 1 = -Infinity). -/
theorem C1_empty_projects_succeeds (body : ProjectBody) (now : String) (ok : Bool)
    (doc : PortfolioDocument) (file : FsFile) (h : doc.projects = []) :
    (postProjects body now ok doc file).response.status = 201
    ∧ (postProjects body now ok doc file).response.success = true
    ∧ (postProjects body now ok doc file).response.projectData.map Project.id
        = some none := by
  refine ⟨rfl, rfl, ?_⟩
  simp [postProjects, mkNewProject, h, jsMathMax, jsAddOne]

/-- Witness for C1_empty_projects_succeeds at a concrete empty document. -/
theorem C1_witness :
    emptyDoc.projects = []
    ∧ (postProjects emptyBody "t" true emptyDoc FsFile.absent).response.projectData.map
        Project.id = some none :=
  ⟨rfl, (C1_empty_projects_succeeds emptyBody "t" true emptyDoc FsFile.absent rfl).2.2⟩

/-- C2: on every document whose projects collection is non-empty (with
integer ids), the handler assigns the new project the id
`Math.max(existing ids) + 1`; that id is an integer, is strictly new
(not among the existing ids), the new project is appended, and id
uniqueness of the projects array is preserved. -/
theorem C2_new_id_is_max_plus_one (body : ProjectBody) (now : String) (ok : Bool)
    (doc : PortfolioDocument) (file : FsFile)
    (h1 : doc.projects ≠ [])
    (h2 : ∀ p ∈ doc.projects, p.id ≠ none)
    (h3 : (doc.projects.map Project.id).Nodup) :
    (postProjects body now ok doc file).response.projectData
        = some (mkNewProject body now doc.projects)
    ∧ (mkNewProject body now doc.projects).id
        = jsAddOne (jsMathMax (doc.projects.map Project.id))
    ∧ (mkNewProject body now doc.projects).id ≠ none
    ∧ (mkNewProject body now doc.projects).id ∉ doc.projects.map Project.id
    ∧ (postProjects body now ok doc file).doc.projects
        = doc.projects ++ [mkNewProject body now doc.projects]
    ∧ ((postProjects body now ok doc file).doc.projects.map Project.id).Nodup := by
  obtain ⟨q, rest, hqr⟩ : ∃ q rest, doc.projects = q :: rest := by
    cases hd : doc.projects with
    | nil => exact absurd hd h1
    | cons q rest => exact ⟨q, rest, rfl⟩
  have hqmem : q.id ∈ doc.projects.map Project.id := by
    rw [hqr]
    exact List.mem_map_of_mem Project.id (List.mem_cons_self q rest)
  have hqid : q.id ≠ none := h2 q (by rw [hqr]; exact List.mem_cons_self q rest)
  have hmaxne : jsMathMax (doc.projects.map Project.id) ≠ none :=
    jsMathMax_ne_none hqmem hqid
  obtain ⟨m, hm⟩ : ∃ m : Int, jsMathMax (doc.projects.map Project.id) = some m := by
    cases hmm : jsMathMax (doc.projects.map Project.id) with
    | none => exact absurd hmm hmaxne
    | some m => exact ⟨m, rfl⟩
  have hpid : (mkNewProject body now doc.projects).id = some (m + 1) := by
    simp [mkNewProject, hm, jsAddOne]
  have hnotmem : (mkNewProject body now doc.projects).id ∉ doc.projects.map Project.id := by
    intro hmem
    have hle := jsMathMax_mem_le hmem
    rw [hm, hpid] at hle
    simp [jsLe] at hle
  have happ : (postProjects body now ok doc file).doc.projects
      = doc.projects ++ [mkNewProject body now doc.projects] := by
    cases ok <;> rfl
  refine ⟨rfl, rfl, ?_, hnotmem, happ, ?_⟩
  · rw [hpid]
    simp
  · rw [happ, List.map_append, List.nodup_append]
    refine ⟨h3, by simp, ?_⟩
    intro a ha hb
    simp only [List.map_cons, List.map_nil, List.mem_singleton] at hb
    subst hb
    exact hnotmem ha

/-- Witness for C2_new_id_is_max_plus_one at the document with project
ids 1, 2, 5: the handler returns the new record and its id is 6. -/
theorem C2_witness :
    (postProjects emptyBody "t" true doc125 FsFile.absent).response.projectData
        = some (mkNewProject emptyBody "t" doc125.projects)
    ∧ (mkNewProject emptyBody "t" doc125.projects).id = some 6 := by
  have h := C2_new_id_is_max_plus_one emptyBody "t" true doc125 FsFile.absent
    (by decide) (by decide) (by decide)
  exact ⟨h.1, by decide⟩

/-- C3: save-load-save round-trip.  Saving a document, loading it back,
and saving it again leaves the projects and skills arrays of both the
in-memory document and the stored file identical; only the metadata
last_updated stamp changes between the two saved documents. -/
theorem C3_save_load_save_roundtrip (t1 t2 : String) (d : PortfolioDocument) :
    (savePortfolioData t2 true
        (loadPortfolioData t2 true (savePortfolioData t1 true d FsFile.absent).file).doc
        (savePortfolioData t1 true d FsFile.absent).file).doc.projects
      = (savePortfolioData t1 true d FsFile.absent).doc.projects
    ∧ (savePortfolioData t2 true
        (loadPortfolioData t2 true (savePortfolioData t1 true d FsFile.absent).file).doc
        (savePortfolioData t1 true d FsFile.absent).file).doc.skills
      = (savePortfolioData t1 true d FsFile.absent).doc.skills
    ∧ (savePortfolioData t2 true
        (loadPortfolioData t2 true (savePortfolioData t1 true d FsFile.absent).file).doc
        (savePortfolioData t1 true d FsFile.absent).file).file
      = FsFile.stored (stampMetadata t2 (stampMetadata t1 d))
    ∧ (stampMetadata t2 (stampMetadata t1 d)).projects = (stampMetadata t1 d).projects
    ∧ (stampMetadata t2 (stampMetadata t1 d)).skills = (stampMetadata t1 d).skills := by
  exact ⟨rfl, rfl, rfl, rfl, rfl⟩

/-- C4: load behavior.  If the backing file exists and parses, its
document is returned unchanged; if it exists but is unparseable, the
default document is returned (error swallowed); if it is absent, the
default document — exactly two sample projects and five sample skills —
is constructed, persisted, and returned. -/
theorem C4_load_behavior (now : String) (d : PortfolioDocument) :
    loadPortfolioData now true (FsFile.stored d)
        = { doc := d, file := FsFile.stored d, usedDefault := false }
    ∧ (loadPortfolioData now true FsFile.corrupt).doc = stampMetadata now (defaultData now)
    ∧ (loadPortfolioData now true FsFile.corrupt).usedDefault = true
    ∧ (loadPortfolioData now true FsFile.absent).doc = stampMetadata now (defaultData now)
    ∧ (loadPortfolioData now true FsFile.absent).file
        = FsFile.stored (stampMetadata now (defaultData now))
    ∧ (loadPortfolioData now true FsFile.absent).doc.projects.length = 2
    ∧ (loadPortfolioData now true FsFile.absent).doc.skills.length = 5 := by
  exact ⟨rfl, rfl, rfl, rfl, rfl, rfl, rfl⟩

/-- C5: for every event trace in which each completed request contributed
exactly one gauge increment at start and one decrement on finish (equal
start and finish counts), the http_active_connections gauge returns to
its pre-burst value. -/
theorem C5_gauge_returns_to_baseline (g0 : Int) (es : List ConnEvent)
    (h : es.count ConnEvent.start = es.count ConnEvent.finish) :
    gaugeAfter g0 es = g0 := by
  rw [gaugeAfter_eq, h]
  omega

/-- Witness for C5_gauge_returns_to_baseline on a concrete trace of two
interleaved completed requests starting from gauge value 7. -/
theorem C5_witness :
    ([ConnEvent.start, ConnEvent.start, ConnEvent.finish, ConnEvent.finish].count
        ConnEvent.start
      = [ConnEvent.start, ConnEvent.start, ConnEvent.finish, ConnEvent.finish].count
        ConnEvent.finish)
    ∧ gaugeAfter 7 [ConnEvent.start, ConnEvent.start, ConnEvent.finish, ConnEvent.finish]
        = 7 :=
  ⟨by decide,
   C5_gauge_returns_to_baseline 7
     [ConnEvent.start, ConnEvent.start, ConnEvent.finish, ConnEvent.finish] (by decide)⟩

/-- C6: after any sequence of completed requests, the http_requests_total
counter of a label triple equals the number of completed requests bearing
exactly that triple, and the counter never decreases as further requests
complete. -/
theorem C6_requests_total_counts (rs more : List ReqLabel) (x : ReqLabel) :
    requestsTotalAfter rs x = rs.count x
    ∧ requestsTotalAfter rs x ≤ requestsTotalAfter (rs ++ more) x := by
  have h1 : requestsTotalAfter rs x = rs.count x := by
    rw [requestsTotalAfter, foldl_counterInc]
    simp [counterZero]
  have h2 : requestsTotalAfter (rs ++ more) x = (rs ++ more).count x := by
    rw [requestsTotalAfter, foldl_counterInc]
    simp [counterZero]
  refine ⟨h1, ?_⟩
  rw [h1, h2, List.count_append]
  omega

/-- C7: on request finish, the route label is the matched route pattern
when the framework resolved one and otherwise the raw request path, and
the histogram observation and the counter increment carry the same
(method, route, status) label triple. -/
theorem C7_same_label_triple (method : String) (matched : Option String) (path : String)
    (status : Nat) (startMs nowMs : Int) :
    (metricsOnFinish method matched path status startMs nowMs).1.route = matched.getD path
    ∧ (metricsOnFinish method matched path status startMs nowMs).2.route = matched.getD path
    ∧ (metricsOnFinish method matched path status startMs nowMs).1.method
        = (metricsOnFinish method matched path status startMs nowMs).2.method
    ∧ (metricsOnFinish method matched path status startMs nowMs).1.status
        = (metricsOnFinish method matched path status startMs nowMs).2.status := by
  cases matched <;> exact ⟨rfl, rfl, rfl, rfl⟩

/-- C8: when the write inside savePortfolioData fails, the error is
caught and logged, not propagated: the handler still responds 201 with
success true and the new record in the body, the in-memory document keeps
the appended project (no rollback), and the on-disk file is unchanged —
in-memory and on-disk state diverge with nothing beyond a logged error
(no failure status is surfaced to the HTTP caller at all). -/
theorem C8_save_failure_no_rollback (body : ProjectBody) (now : String)
    (doc : PortfolioDocument) (file : FsFile) :
    (postProjects body now false doc file).response.status = 201
    ∧ (postProjects body now false doc file).response.success = true
    ∧ (postProjects body now false doc file).response.projectData
        = some (mkNewProject body now doc.projects)
    ∧ (postProjects body now false doc file).saveErrorLogged = true
    ∧ (postProjects body now false doc file).file = file
    ∧ (postProjects body now false doc file).doc.projects
        = doc.projects ++ [mkNewProject body now doc.projects]
    ∧ mkNewProject body now doc.projects ∈ (postProjects body now false doc file).doc.projects := by
  refine ⟨rfl, rfl, rfl, rfl, rfl, rfl, ?_⟩
  have h : (postProjects body now false doc file).doc.projects
      = doc.projects ++ [mkNewProject body now doc.projects] := rfl
  rw [h]
  simp

/-- C9: frame property of savePortfolioData — it touches only the
metadata, creating it when absent and stamping last_updated, while
initialized_at and version are preserved and the projects and skills
arrays of the in-memory document are left unchanged. -/
theorem C9_save_frame (now : String) (ok : Bool) (d : PortfolioDocument) (file : FsFile) :
    (savePortfolioData now ok d file).doc.projects = d.projects
    ∧ (savePortfolioData now ok d file).doc.skills = d.skills
    ∧ (savePortfolioData now ok d file).doc.metadata
        = some { initialized_at := (d.metadata.getD mdEmpty).initialized_at
                 version := (d.metadata.getD mdEmpty).version
                 last_updated := some now } := by
  cases ok <;> exact ⟨rfl, rfl, rfl⟩

/-- C10: GET /api/logs with query parameter lines=0 slices by negated
zero, which is a slice from index 0, so every line of the latest log file
is returned; with the parameter absent the default of 50 yields the last
50 lines. -/
theorem C10_logs_zero_returns_all (ls : List String) :
    apiLogsLines (some 0) ls = ls
    ∧ apiLogsLines none ls = ls.drop (ls.length - 50) := by
  constructor
  · simp [apiLogsLines, jsSliceFrom]
  · simp only [apiLogsLines, jsSliceFrom, Option.getD]
    have h : (-(50 : Int)) < 0 := by omega
    rw [if_pos h]
    have h2 : (max ((ls.length : Int) + -50) 0).toNat = ls.length - 50 := by
      rcases le_total ((ls.length : Int) + -50) 0 with h50 | h50
      · rw [max_eq_right h50]
        omega
      · rw [max_eq_left h50]
        omega
    rw [h2]
